import Mathlib

/-!
Verification development for the epicenter excerpt.

Part 1 embeds `src/apps/sh/src/lib/client/core/params.ts`
(`buildKeyMap`, `stripEmptySlots`, `buildClientParams`).
Part 2 embeds the `request` executor of
`src/apps/sh/src/lib/client/client/client.ts`.
Part 3 embeds the permissions service (`src/unnamed/part_000`), the web
FFmpeg service (`src/apps/whispering/src/lib/services/ffmpeg/web.ts`) and the
desktop notification service
(`src/apps/whispering/src/lib/services/notifications/desktop.ts`).

JavaScript runtime values are modelled by the inductive type `Val` below:
plain JSON-like data (undefined, null, booleans, integer numbers, strings and
ordered string-keyed objects) without prototype chains, getters or host
objects.  Effectful collaborators (the transport, interceptors, validators,
platform plugins, `JSON.parse`) are parameters of the embedding, modelled as
functions into `Except Val` where a thrown JavaScript value is `Except.error`.
-/

namespace Epicenter

/-- A JavaScript value, restricted to plain JSON-like data.  An object keeps
its keys in insertion order, matching the enumeration order that
`Object.entries` exhibits for string keys. -/
inductive Val where
  | undef
  | null
  | bool (b : Bool)
  | num (n : Int)
  | str (s : String)
  | obj (entries : List (String × Val))

/-- JavaScript truthiness for a `Val` (`undefined`, `null`, `false`, `0` and
the empty string are falsy; every object is truthy). -/
def jsTruthy : Val → Bool
  | .undef => false
  | .null => false
  | .bool b => b
  | .num n => n != 0
  | .str s => s ≠ ""
  | .obj _ => true

/-- The result of `Object.entries(v ?? {})`: the entries of an object in
insertion order, the indexed characters of a string, and the empty list for
every other value (nullish values coalesce to `{}`; numbers and booleans have
no own enumerable keys). -/
def valEntries : Val → List (String × Val)
  | .obj es => es
  | .str s => s.toList.enum.map (fun p => (toString p.1, Val.str (String.singleton p.2)))
  | _ => []

/-- JavaScript property assignment `o[k] = v` on an ordered string-keyed
association list: an existing key keeps its position and is updated in place,
a new key is appended at the end. -/
def setKey {α : Type} (l : List (String × α)) (k : String) (v : α) : List (String × α) :=
  if l.any (fun e => e.1 == k) then
    l.map (fun e => if e.1 == k then (k, v) else e)
  else
    l ++ [(k, v)]

/-- JavaScript `key.startsWith(pre)`, computed over the characters of the two
strings (the reserved prefixes are ASCII, where UTF-16 code units and
characters coincide). -/
def charsStartWith : List Char → List Char → Bool
  | _, [] => true
  | [], _ :: _ => false
  | c :: cs, d :: ds => c == d && charsStartWith cs ds

/-- String form of `charsStartWith`. -/
def strStartsWith (s pre : String) : Bool :=
  charsStartWith s.toList pre.toList

/-- JavaScript `key.slice(n)`, computed over the characters of the string. -/
def strDropChars (s : String) (n : Nat) : String :=
  ⟨s.toList.drop n⟩

/-! ## Part 1: params.ts -/

/-- The four request slots of params.ts (`type Slot`). -/
inductive Slot where
  | body
  | headers
  | path
  | query
deriving Repr, DecidableEq

/-- A `Field` of params.ts: destination slot (the source calls it `in`),
optional source key and optional rename (`map`).  The source type forces a
key on non-body slots; the runtime code only tests truthiness of `key`, which
the embedding mirrors, so the key is optional uniformly here. -/
structure Field where
  slot : Slot
  key : Option String
  map : Option String
deriving Repr, DecidableEq

/-- A `Fields` group of params.ts: which slots admit extra parameters
(`allowExtra`, kept in the insertion order that `Object.entries` exposes) and
the declared member fields (`args`; an absent array behaves like an empty
one, which is how it is modelled). -/
structure Fields where
  allowExtra : List (Slot × Bool)
  args : List Field
deriving Repr, DecidableEq

/-- One entry of a `FieldsConfig`: either a bare `Field` (the source
discriminates with `'in' in config`) or a `Fields` group. -/
inductive FieldConfig where
  | field (f : Field)
  | fields (g : Fields)
deriving Repr, DecidableEq

/-- A `FieldsConfig` array. -/
abbrev FieldsConfig := List FieldConfig

/-- JavaScript truthiness of an optional string: `undefined` and the empty
string are falsy. -/
def keyTruthy : Option String → Option String
  | some "" => none
  | x => x

/-- The value stored in the key map for a declared key: destination slot and
optional rename. -/
structure KeyInfo where
  slot : Slot
  map : Option String
deriving Repr, DecidableEq

/-- The key map of params.ts (`type KeyMap`), as an association list with
`Map.set` update semantics. -/
abbrev KeyMap := List (String × KeyInfo)

/-- First-match lookup in a `KeyMap` (`Map.get`). -/
def lookupKey (m : KeyMap) (k : String) : Option KeyInfo :=
  (m.find? (fun e => e.1 == k)).map (fun e => e.2)

/-- Inserts one `Field` into a key map exactly when its key is truthy
(`if (config.key) map.set(config.key, {in: config.in, map: config.map})`). -/
def insertField (m : KeyMap) (f : Field) : KeyMap :=
  match keyTruthy f.key with
  | some k => setKey m k ⟨f.slot, f.map⟩
  | none => m

/-- `buildKeyMap` of params.ts: walk the config; a bare field with a truthy
key is inserted, a group recurses over its `args`. -/
def buildKeyMap (fields : FieldsConfig) : KeyMap :=
  fields.foldl
    (fun m c =>
      match c with
      | .field f => insertField m f
      | .fields g => g.args.foldl insertField m)
    []

/-- The `Params` record of params.ts.  Every slot is optional because
`stripEmptySlots` deletes keys from the record; `buildClientParams`
initialises all four as present. -/
structure Params where
  body : Option Val
  headers : Option (List (String × Val))
  path : Option (List (String × Val))
  query : Option (List (String × Val))

/-- The initial params value of `buildClientParams`:
`{body: {}, headers: {}, path: {}, query: {}}`. -/
def initParams : Params := ⟨some (Val.obj []), some [], some [], some []⟩

/-- Tests `value && typeof value === "object" && !Object.keys(value).length`
for a body value in the modelled universe: only the empty object qualifies
(null is falsy, primitives are not of object type). -/
def isEmptyObjVal : Val → Bool
  | .obj [] => true
  | _ => false

/-- `stripEmptySlots` of params.ts: delete every present slot whose value is
an object with no keys.  The three record slots always hold objects; the
body slot holds an arbitrary value and is deleted exactly when that value is
an empty object. -/
def stripEmptySlots (p : Params) : Params where
  body :=
    match p.body with
    | some v => if isEmptyObjVal v then none else some v
    | none => none
  headers :=
    match p.headers with
    | some [] => none
    | x => x
  path :=
    match p.path with
    | some [] => none
    | x => x
  query :=
    match p.query with
    | some [] => none
    | x => x

/-- No slot of a params value holds an empty mapping: the body is not an
empty object and none of the three record slots is an empty record. -/
def noEmptyMappingSlot (p : Params) : Prop :=
  p.body ≠ some (Val.obj []) ∧ p.headers ≠ some [] ∧ p.path ≠ some [] ∧ p.query ≠ some []

/-- Property assignment `(params[slot])[k] = v`.  Returns `none` when the
assignment would throw: the module is strict-mode code, so assigning a
property of a primitive, `null` or `undefined` body (or of an already absent
slot) is a TypeError. -/
def setSlot (p : Params) (s : Slot) (k : String) (v : Val) : Option Params :=
  match s with
  | .body =>
    match p.body with
    | some (Val.obj es) => some { p with body := some (Val.obj (setKey es k v)) }
    | _ => none
  | .headers =>
    match p.headers with
    | some l => some { p with headers := some (setKey l k v) }
    | none => none
  | .path =>
    match p.path with
    | some l => some { p with path := some (setKey l k v) }
    | none => none
  | .query =>
    match p.query with
    | some l => some { p with query := some (setKey l k v) }
    | none => none

/-- The reserved prefix table of params.ts (`extraPrefixes`), in the
insertion order of the object literal `extraPrefixesMap`. -/
def extraPrefixes : List (String × Slot) :=
  [("$body_", .body), ("$headers_", .headers), ("$path_", .path), ("$query_", .query)]

/-- Resolves `field.map || key`: the rename when it is truthy, else the key. -/
def nameOf (m : Option String) (k : String) : String :=
  match keyTruthy m with
  | some s => s
  | none => k

/-- The body of the inner loop of `buildClientParams` for one entry `(k, v)`
of an argument processed under a `Fields` group: a declared key goes to its
slot under its rename; otherwise the first matching reserved prefix routes it
with the prefix stripped; otherwise the first slot whose `allowExtra` entry
is truthy receives it; otherwise the entry is dropped. -/
def processEntry (km : KeyMap) (g : Fields) (p : Params) (k : String) (v : Val) :
    Option Params :=
  match lookupKey km k with
  | some info => setSlot p info.slot (nameOf info.map k) v
  | none =>
    match extraPrefixes.find? (fun pr => strStartsWith k pr.1) with
    | some pr => setSlot p pr.2 (strDropChars k pr.1.toList.length) v
    | none =>
      match g.allowExtra.find? (fun e => e.2) with
      | some e => setSlot p e.1 k v
      | none => some p

/-- The inner loop of `buildClientParams` over the `Object.entries` of an
argument processed under a `Fields` group, in order. -/
def processEntries (km : KeyMap) (g : Fields) :
    Params → List (String × Val) → Option Params
  | p, [] => some p
  | p, kv :: rest =>
    match processEntry km g p kv.1 kv.2 with
    | some p' => processEntries km g p' rest
    | none => none

/-- Processing of one argument under the active config entry.  A bare field
with a truthy key routes the whole argument through the key map (the source
reads `map.get(config.key)!`, which cannot miss because `buildKeyMap`
inserted every truthy key; a miss is modelled as a throw); a keyless field
makes the whole argument the body; a group iterates `Object.entries` of the
argument. -/
def processArg (km : KeyMap) (c : FieldConfig) (p : Params) (a : Val) : Option Params :=
  match c with
  | .field f =>
    match keyTruthy f.key with
    | some k =>
      match lookupKey km k with
      | some info => setSlot p info.slot (nameOf info.map k) a
      | none => none
    | none => some { p with body := some a }
  | .fields g =>
    processEntries km g p (valEntries a)

/-- The carry-forward of the positional walk: `if (fields[index]) config =
fields[index]` — at the current position (whose config entry, when present,
is the head of the remaining config list) the positional entry becomes
active, otherwise the previously active entry stays. -/
def activeConfig (fs : FieldsConfig) (cfg : Option FieldConfig) : Option FieldConfig :=
  match fs with
  | f :: _ => some f
  | [] => cfg

/-- The positional walk of `buildClientParams`: at index `i` the config entry
`fields[i]`, when present, becomes active for this and all later positions;
an argument with no active config is skipped. -/
def buildLoop (km : KeyMap) :
    List Val → FieldsConfig → Option FieldConfig → Params → Option Params
  | [], _, _, p => some p
  | a :: as, fs, cfg, p =>
    match activeConfig fs cfg with
    | none => buildLoop km as fs.tail none p
    | some c =>
      match processArg km c p a with
      | some p' => buildLoop km as fs.tail (some c) p'
      | none => none

/-- `buildClientParams` before the final `stripEmptySlots` call. -/
def buildClientParamsPre (args : List Val) (fields : FieldsConfig) : Option Params :=
  buildLoop (buildKeyMap fields) args fields none initParams

/-- `buildClientParams` of params.ts: run the positional walk from the
all-empty params and strip empty slots from the result.  `none` models a
thrown TypeError. -/
def buildClientParams (args : List Val) (fields : FieldsConfig) : Option Params :=
  (buildClientParamsPre args fields).map stripEmptySlots

/-! ## Part 2: the request executor of client.ts

The asynchronous `request` function is embedded as a pure function in the
exception monad `Except Val` (a thrown JavaScript value is `Except.error`).
Everything the executor consumes — the merged per-call options and the
effectful collaborators (auth, validators, serializer, interceptor chains,
the transport, the body readers, `JSON.parse`) — is gathered into one
`ClientEnv` record: the source merges client config and per-call options
into a single `opts` object before any of it is used, so the embedding
starts from that merged state.  Fields of the in-flight request that the
post-transport stages never read (the URL, the request headers after the
Content-Type deletion, the serialized body) are represented only by the
throw behaviour of the steps that compute them. -/

/-- A body parse mode (the non-`auto` values of `parseAs`). -/
inductive ParseMode where
  | arrayBuffer
  | blob
  | formData
  | json
  | text
  | stream
deriving Repr, DecidableEq

/-- The configured `parseAs` option: `auto` or a fixed mode. -/
inductive ParseAsChoice where
  | auto
  | mode (m : ParseMode)
deriving Repr, DecidableEq

/-- The configured `responseStyle`: `data` selects the bare value, `fields`
(or any unset value, which behaves identically) selects the envelope. -/
inductive RespStyle where
  | data
  | fields
deriving Repr, DecidableEq

/-- The transport response visible to the executor: status, headers and the
materialised body text.  `bodyVal` stands for the raw `response.body` stream
object returned verbatim in `stream` parse mode. -/
structure Response where
  status : Nat
  headers : List (String × String)
  bodyText : String
  bodyVal : Val

/-- `Headers.get`: case-insensitive lookup, `null` when absent. -/
def headerGet (hs : List (String × String)) (k : String) : Option String :=
  (hs.find? (fun h => h.1.toLower == k.toLower)).map (fun h => h.2)

/-- `Response.ok`: status in the range 200 to 299. -/
def Response.ok (r : Response) : Bool :=
  decide (200 ≤ r.status) && decide (r.status < 300)

/-- Modelled from the spec: `getParseAs` lives in client/utils.ts, which is
not part of the excerpt.  Section 4.4 of the spec describes it: the parse
mode is inferred from the Content-Type response header — a json content type
maps to `json`, a `text/` content type maps to `text`, other or missing
content types are indeterminate and yield no mode (the caller then defaults
to `json`). -/
def getParseAs (contentType : Option String) : Option ParseMode :=
  match contentType with
  | none => none
  | some ct =>
    let base := ((ct.splitOn ";").headD "").trim
    if (base.splitOn "json").length > 1 then some .json
    else if base.startsWith "text/" then some .text
    else none

/-- The merged options and collaborators of one `request` call.
`security`, `requestValidator`, `bodySerializer`, `responseValidator` and
`responseTransformer` are `none` when the corresponding option is unset;
interceptor lists carry `none` entries for removed functions, matching the
`if (fn)` guards of the source. -/
structure ClientEnv where
  security : Option (Except Val Unit)
  requestValidator : Option (Except Val Unit)
  body : Val
  bodySerializer : Option (Val → Except Val Val)
  buildUrlStep : Except Val Unit
  requestFns : List (Option (Except Val Unit))
  fetchStep : Except Val Response
  responseFns : List (Option (Response → Except Val Response))
  parseAs : Option ParseAsChoice
  responseStyle : RespStyle
  parseBody : ParseMode → Response → Except Val Val
  jsonParse : String → Option Val
  errorFns : List (Option (Val → Response → Except Val Val))
  responseValidator : Option (Val → Except Val Unit)
  responseTransformer : Option (Val → Except Val Val)
  throwOnError : Bool

/-- The value a `request` call returns when it does not throw: either the
bare value (`responseStyle === "data"`) or the `{data | error, request,
response}` envelope, whose `data` and `error` components are `none` for an
absent key. -/
inductive ReqOutcome where
  | bare (v : Val)
  | envelope (data : Option Val) (error : Option Val) (resp : Response)

/-- Runs the request interceptor chain: each present function may throw; the
evolving `Request` object itself is not observed by any later stage and is
therefore not threaded. -/
def runRequestFns : List (Option (Except Val Unit)) → Except Val Unit
  | [] => pure ()
  | none :: fns => runRequestFns fns
  | some step :: fns => do
    step
    runRequestFns fns

/-- Runs the response interceptor chain, piping each present function's
output response into the next (`response = await fn(response, request,
opts)`). -/
def runResponseFns :
    List (Option (Response → Except Val Response)) → Response → Except Val Response
  | [], r => pure r
  | none :: fns, r => runResponseFns fns r
  | some f :: fns, r => do
    runResponseFns fns (← f r)

/-- Runs the error interceptor chain.  The source passes the original
`error` to every function and keeps only the last result
(`finalError = await fn(error, response, request, opts)`), so the chain does
not pipe; the embedding mirrors that. -/
def runErrorFns (fns : List (Option (Val → Response → Except Val Val)))
    (error : Val) (resp : Response) : Except Val Val :=
  fns.foldlM
    (fun finalError ofn =>
      match ofn with
      | some f => f error resp
      | none => pure finalError)
    error

/-- Resolves the parse mode:
`(opts.parseAs === "auto" ? getParseAs(contentType) : opts.parseAs) ?? "json"`. -/
def resolveParseAs (env : ClientEnv) (resp : Response) : ParseMode :=
  match env.parseAs with
  | some .auto => (getParseAs (headerGet resp.headers "Content-Type")).getD .json
  | some (.mode m) => m
  | none => .json

/-- Shapes a success value per the response style:
`opts.responseStyle === "data" ? data : {data, ...result}`. -/
def shapeData (env : ClientEnv) (resp : Response) (d : Val) : ReqOutcome :=
  match env.responseStyle with
  | .data => .bare d
  | .fields => .envelope (some d) none resp

/-- Shapes the non-thrown error return:
`opts.responseStyle === "data" ? undefined : {error: finalError, ...result}`. -/
def shapeError (env : ClientEnv) (resp : Response) (e : Val) : ReqOutcome :=
  match env.responseStyle with
  | .data => .bare Val.undef
  | .fields => .envelope none (some e) resp

/-- The pre-parse stages of `request` (client.ts lines 57 to 108): auth,
request validation, body serialization, URL building together with `Request`
construction, the request interceptor chain, the transport call and the
response interceptor chain.  Returns the response the branching at line 115
inspects. -/
def finalResponse (env : ClientEnv) : Except Val Response := do
  (match env.security with
   | some step => step
   | none => pure ())
  (match env.requestValidator with
   | some step => step
   | none => pure ())
  let _body ←
    match env.bodySerializer with
    | some ser => if jsTruthy env.body then ser env.body else pure env.body
    | none => pure env.body
  env.buildUrlStep
  runRequestFns env.requestFns
  let resp ← env.fetchStep
  runResponseFns env.responseFns resp

/-- The post-transport stages of `request` (client.ts lines 110 to 199),
applied to the response produced by the interceptor chain.  Success branch:
a 204 status or a Content-Length of "0" returns an empty data object at
once; otherwise the resolved parse mode either returns the raw body stream
(`stream`) or reads the body, running the response validator and transformer
for `json` only.  Error branch: the body text is read, parsed as JSON with a
fallback to the raw text (a parsed `null` also falls back, through `??`),
run through the error interceptor chain, replaced by an empty object when
falsy, then thrown under `throwOnError` or returned in the error channel. -/
def handleResponse (env : ClientEnv) (resp : Response) : Except Val ReqOutcome :=
  if resp.ok then
    if resp.status == 204 || headerGet resp.headers "Content-Length" == some "0" then
      pure (shapeData env resp (Val.obj []))
    else
      match resolveParseAs env resp with
      | .stream => pure (shapeData env resp resp.bodyVal)
      | m => do
        let data ← env.parseBody m resp
        let data ←
          if m = ParseMode.json then do
            (match env.responseValidator with
             | some v => v data
             | none => pure ())
            (match env.responseTransformer with
             | some t => t data
             | none => pure data)
          else pure data
        pure (shapeData env resp data)
  else do
    let textError := resp.bodyText
    let error :=
      match env.jsonParse textError with
      | some Val.null => Val.str textError
      | some j => j
      | none => Val.str textError
    let finalError ← runErrorFns env.errorFns error resp
    let finalError := if jsTruthy finalError then finalError else Val.obj []
    if env.throwOnError then throw finalError
    else pure (shapeError env resp finalError)

/-- The `request` function of client.ts: the pre-parse stages followed by
the response handling. -/
def requestModel (env : ClientEnv) : Except Val ReqOutcome := do
  handleResponse env (← finalResponse env)

/-! ## Part 3: collaborator services

The services wrap platform calls with `tryAsync` of the wellcrafted library,
whose documented contract is: the `try` computation resolving to `v` yields
the success result `Ok v`; the `try` computation throwing `e` yields the
error result built by `catch` from `e`.  A success or error result is the
value `Result = Ok α | Err ε`; tagged errors carry a tag name, a message, a
context and a cause. -/

/-- The wellcrafted `Result` value: `{data}` on success, `{error}` on
failure.  Collaborator calls return this value and never throw. -/
inductive WResult (α : Type) (ε : Type) where
  | ok (data : α)
  | err (error : ε)

/-- A wellcrafted tagged error value: tag name, human-readable message,
context payload and triggering cause. -/
structure TaggedErrorVal where
  name : String
  message : String
  context : Val
  cause : Val

/-- The platform collaborators of the permissions service
(`tauri-plugin-macos-permissions-api`) and the message extraction of the
wellcrafted library, as the environment of one call.  Each platform call
either resolves to a value or throws. -/
structure PermEnv where
  checkAccessibilityPermission : Except Val Bool
  requestAccessibilityPermission : Except Val Val
  checkMicrophonePermission : Except Val Bool
  requestMicrophonePermission : Except Val Val
  extractErrorMessage : Val → String

/-- `accessibility.check` of the permissions service (src/unnamed/part_000):
`Ok(true)` at once off macOS, otherwise the platform call wrapped in
`tryAsync` with a `PermissionsServiceErr` on throw. -/
def accessibilityCheck (isMacos : Bool) (env : PermEnv) :
    WResult Bool TaggedErrorVal :=
  if !isMacos then .ok true
  else
    match env.checkAccessibilityPermission with
    | .ok b => .ok b
    | .error e =>
      .err ⟨"PermissionsServiceError",
        "Failed to check accessibility permissions: " ++ env.extractErrorMessage e,
        Val.undef, e⟩

/-- `accessibility.request` of the permissions service: `Ok(true)` at once
off macOS, otherwise the platform call wrapped in `tryAsync`. -/
def accessibilityRequest (isMacos : Bool) (env : PermEnv) :
    WResult Val TaggedErrorVal :=
  if !isMacos then .ok (Val.bool true)
  else
    match env.requestAccessibilityPermission with
    | .ok v => .ok v
    | .error e =>
      .err ⟨"PermissionsServiceError",
        "Failed to request accessibility permissions: " ++ env.extractErrorMessage e,
        Val.undef, e⟩

/-- `microphone.check` of the permissions service: `Ok(true)` at once off
macOS, otherwise the platform call wrapped in `tryAsync`. -/
def microphoneCheck (isMacos : Bool) (env : PermEnv) :
    WResult Bool TaggedErrorVal :=
  if !isMacos then .ok true
  else
    match env.checkMicrophonePermission with
    | .ok b => .ok b
    | .error e =>
      .err ⟨"PermissionsServiceError",
        "Failed to check microphone permissions: " ++ env.extractErrorMessage e,
        Val.undef, e⟩

/-- `microphone.request` of the permissions service: `Ok(true)` at once off
macOS, otherwise the platform call wrapped in `tryAsync`. -/
def microphoneRequest (isMacos : Bool) (env : PermEnv) :
    WResult Val TaggedErrorVal :=
  if !isMacos then .ok (Val.bool true)
  else
    match env.requestMicrophonePermission with
    | .ok v => .ok v
    | .error e =>
      .err ⟨"PermissionsServiceError",
        "Failed to request microphone permissions: " ++ env.extractErrorMessage e,
        Val.undef, e⟩

/-- `checkInstalled` of the web FFmpeg service (ffmpeg/web.ts): always
`Ok(false)` without invoking any platform API. -/
def ffmpegCheckInstalledWeb : WResult Bool TaggedErrorVal :=
  .ok false

/-- `compressAudioBlob` of the web FFmpeg service: always the fixed
unavailable `FfmpegServiceErr`, carrying the compression options as context
and an undefined cause, without invoking any platform API.  The tag
constructor `FfmpegServiceErr` is imported from ffmpeg/types.ts, which is
not part of the excerpt; it is modelled from the spec as the tagged error
builder of the taxonomy item named platform-unsupported failure. -/
def ffmpegCompressAudioBlobWeb (blob : Val) (compressionOptions : String) :
    WResult Val TaggedErrorVal :=
  let _ := blob
  .err ⟨"FfmpegServiceError",
    "Audio compression is not available in the web version. FFmpeg is only supported in the desktop application.",
    Val.obj [("compressionOptions", Val.str compressionOptions)],
    Val.undef⟩

/-- The platform collaborators of the desktop notification service
(`@tauri-apps/plugin-notification`): listing active notifications yields
their numeric ids (or throws), and removal of one notification either
succeeds or throws. -/
structure NotifEnv where
  active : Except Val (List Nat)
  removeActive : Nat → Except Val Unit

/-- Modelled from the spec: `hashNanoidToNumber` lives in
notifications/types.ts, which is not part of the excerpt.  The source doc
comment of `clear` says it converts the string ID to a numeric hash; the
claims depend only on the hash being a fixed deterministic function, so it
is modelled as a 32-bit polynomial rolling hash. -/
def hashNanoidToNumber (s : String) : Nat :=
  s.foldl (fun h c => (h * 31 + c.toNat) % 4294967296) 0

/-- `removeNotificationById` of notifications/desktop.ts: list active
notifications (an error result if the listing throws), look for one whose id
equals the requested id, remove it when found (an error result if the
removal throws), and return `Ok(undefined)` otherwise — including when no
notification matches. -/
def removeNotificationById (env : NotifEnv) (id : Nat) :
    WResult Unit TaggedErrorVal :=
  match env.active with
  | .error e =>
    .err ⟨"NotificationServiceError",
      "Unable to retrieve active desktop notifications.",
      Val.obj [("id", Val.num id)], e⟩
  | .ok activeNotifications =>
    match activeNotifications.find? (fun n => n == id) with
    | some matching =>
      match env.removeActive matching with
      | .error e =>
        .err ⟨"NotificationServiceError",
          "Unable to remove notification with id " ++ toString id ++ ".",
          Val.obj [("id", Val.num id)], e⟩
      | .ok _ => .ok ()
    | none => .ok ()

/-- `clear` of the desktop notification service: hash the string id and
delegate to `removeNotificationById`, returning its result unchanged. -/
def notificationClear (env : NotifEnv) (idStringified : String) :
    WResult Unit TaggedErrorVal :=
  removeNotificationById env (hashNanoidToNumber idStringified)

/-! ## Helper lemmas for params.ts -/

theorem isEmptyObjVal_iff (v : Val) : isEmptyObjVal v = true ↔ v = Val.obj [] := by
  cases v with
  | obj es => cases es <;> simp [isEmptyObjVal]
  | undef => simp [isEmptyObjVal]
  | null => simp [isEmptyObjVal]
  | bool b => simp [isEmptyObjVal]
  | num n => simp [isEmptyObjVal]
  | str s => simp [isEmptyObjVal]

theorem strip_noEmptyMappingSlot (q : Params) :
    noEmptyMappingSlot (stripEmptySlots q) := by
  rcases q with ⟨b, h, pa, qu⟩
  refine ⟨?_, ?_, ?_, ?_⟩
  · cases b with
    | none => simp [stripEmptySlots]
    | some v =>
      cases hv : isEmptyObjVal v with
      | true => simp [stripEmptySlots, hv]
      | false =>
        simp only [stripEmptySlots, hv, Bool.false_eq_true, if_false]
        intro hc
        rw [Option.some.injEq] at hc
        rw [hc] at hv
        simp [isEmptyObjVal] at hv
  · cases h with
    | none => simp [stripEmptySlots]
    | some l => cases l <;> simp [stripEmptySlots]
  · cases pa with
    | none => simp [stripEmptySlots]
    | some l => cases l <;> simp [stripEmptySlots]
  · cases qu with
    | none => simp [stripEmptySlots]
    | some l => cases l <;> simp [stripEmptySlots]

theorem strip_body_none_iff (q : Params) :
    (stripEmptySlots q).body = none ↔ (q.body = none ∨ q.body = some (Val.obj [])) := by
  rcases q with ⟨b, h, pa, qu⟩
  cases b with
  | none => simp [stripEmptySlots]
  | some v =>
    cases hv : isEmptyObjVal v with
    | true =>
      simp only [stripEmptySlots, hv, if_true]
      simp [(isEmptyObjVal_iff v).mp hv]
    | false =>
      simp only [stripEmptySlots, hv, Bool.false_eq_true, if_false]
      constructor
      · intro hc; cases hc
      · rintro (hc | hc)
        · cases hc
        · rw [Option.some.injEq] at hc
          rw [hc] at hv
          simp [isEmptyObjVal] at hv

theorem strip_body_keep (q : Params) (v : Val) (hb : q.body = some v)
    (hv : isEmptyObjVal v = false) : (stripEmptySlots q).body = some v := by
  rcases q with ⟨b, h, pa, qu⟩
  simp only [Params.body] at hb
  subst hb
  simp [stripEmptySlots, hv]

theorem setSlot_body {p p' : Params} {s : Slot} {k : String} {v : Val}
    (h : setSlot p s k v = some p') :
    p'.body = p.body ∨ ∃ es, p'.body = some (Val.obj es) := by
  unfold setSlot at h
  split at h
  · split at h
    · rw [Option.some.injEq] at h; subst h; exact Or.inr ⟨_, rfl⟩
    · cases h
  · split at h
    · rw [Option.some.injEq] at h; subst h; exact Or.inl rfl
    · cases h
  · split at h
    · rw [Option.some.injEq] at h; subst h; exact Or.inl rfl
    · cases h
  · split at h
    · rw [Option.some.injEq] at h; subst h; exact Or.inl rfl
    · cases h

theorem setSlot_bodySome {p p' : Params} {s : Slot} {k : String} {v : Val}
    (h : setSlot p s k v = some p') (hb : p.body.isSome = true) :
    p'.body.isSome = true := by
  rcases setSlot_body h with heq | ⟨es, heq⟩
  · rw [heq]; exact hb
  · rw [heq]; rfl

theorem processEntry_bodySome {km : KeyMap} {g : Fields} {p p' : Params}
    {k : String} {v : Val} (h : processEntry km g p k v = some p')
    (hb : p.body.isSome = true) : p'.body.isSome = true := by
  unfold processEntry at h
  split at h
  · exact setSlot_bodySome h hb
  · split at h
    · exact setSlot_bodySome h hb
    · split at h
      · exact setSlot_bodySome h hb
      · rw [Option.some.injEq] at h
        subst h
        exact hb

theorem processEntries_bodySome {km : KeyMap} {g : Fields} :
    ∀ {l : List (String × Val)} {p p' : Params},
      processEntries km g p l = some p' → p.body.isSome = true → p'.body.isSome = true := by
  intro l
  induction l with
  | nil =>
    intro p p' h hb
    unfold processEntries at h
    rw [Option.some.injEq] at h
    subst h
    exact hb
  | cons kv rest ih =>
    intro p p' h hb
    unfold processEntries at h
    split at h
    case h_1 q hq => exact ih h (processEntry_bodySome hq hb)
    case h_2 => cases h

theorem processArg_bodySome {km : KeyMap} {c : FieldConfig} {p p' : Params} {a : Val}
    (h : processArg km c p a = some p') (hb : p.body.isSome = true) :
    p'.body.isSome = true := by
  unfold processArg at h
  split at h
  · split at h
    · split at h
      · exact setSlot_bodySome h hb
      · cases h
    · rw [Option.some.injEq] at h
      subst h
      rfl
  · exact processEntries_bodySome h hb

theorem buildLoop_bodySome {km : KeyMap} :
    ∀ {args : List Val} {fs : FieldsConfig} {cfg : Option FieldConfig} {p p' : Params},
      buildLoop km args fs cfg p = some p' → p.body.isSome = true → p'.body.isSome = true := by
  intro args
  induction args with
  | nil =>
    intro fs cfg p p' h hb
    unfold buildLoop at h
    rw [Option.some.injEq] at h
    subst h
    exact hb
  | cons a as ih =>
    intro fs cfg p p' h hb
    unfold buildLoop at h
    split at h
    · exact ih h hb
    · split at h
      case h_1 q hq => exact ih h (processArg_bodySome hq hb)
      case h_2 => cases h

theorem pre_bodySome {args : List Val} {fields : FieldsConfig} {p₀ : Params}
    (h : buildClientParamsPre args fields = some p₀) : p₀.body.isSome = true :=
  buildLoop_bodySome h rfl

/-! ## Claims about params.ts -/

/-- Claim C2: the spec example
`buildClientParams([{id:"1"}, "hello"], [{in:"path",key:"id"},{in:"body"}])`
does not return `{path:{id:"1"}, body:"hello"}`: the first config entry is a
bare `Field`, so the whole first argument is placed under `path.id`. -/
theorem buildClientParams_example_counterexample :
    buildClientParams [Val.obj [("id", Val.str "1")], Val.str "hello"]
        [.field ⟨.path, some "id", none⟩, .field ⟨.body, none, none⟩] =
      some ⟨some (Val.str "hello"), none, some [("id", Val.obj [("id", Val.str "1")])], none⟩
    ∧ buildClientParams [Val.obj [("id", Val.str "1")], Val.str "hello"]
        [.field ⟨.path, some "id", none⟩, .field ⟨.body, none, none⟩] ≠
      some ⟨some (Val.str "hello"), none, some [("id", Val.str "1")], none⟩ := by
  refine ⟨rfl, ?_⟩
  intro h
  rw [show buildClientParams [Val.obj [("id", Val.str "1")], Val.str "hello"]
        [.field ⟨.path, some "id", none⟩, .field ⟨.body, none, none⟩] =
      some ⟨some (Val.str "hello"), none, some [("id", Val.obj [("id", Val.str "1")])], none⟩
    from rfl] at h
  simp [Params.mk.injEq] at h

/-- Claim C2 (amended): on the argument list `[{id:"1"}, "hello"]` and the
fields config `[{in:"path",key:"id"},{in:"body"}]`, `buildClientParams`
returns `{path:{id:{id:"1"}}, body:"hello"}` — the whole first argument is
the value of `path.id` — with the headers and query slots stripped because
they are empty. -/
theorem buildClientParams_example_actual :
    buildClientParams [Val.obj [("id", Val.str "1")], Val.str "hello"]
        [.field ⟨.path, some "id", none⟩, .field ⟨.body, none, none⟩] =
      some ⟨some (Val.str "hello"), none, some [("id", Val.obj [("id", Val.str "1")])], none⟩ :=
  rfl

/-- Claim C5: a params value returned by `buildClientParams` has no slot
holding an empty mapping; the body slot is absent exactly when the value it
held before stripping was an empty object, and a body holding any other
value survives stripping unchanged. -/
theorem buildClientParams_strip_invariant (args : List Val) (fields : FieldsConfig)
    (p₀ p : Params) (hpre : buildClientParamsPre args fields = some p₀)
    (h : buildClientParams args fields = some p) :
    noEmptyMappingSlot p
    ∧ (p.body = none ↔ p₀.body = some (Val.obj []))
    ∧ (∀ v, p₀.body = some v → isEmptyObjVal v = false → p.body = some v) := by
  have hp : p = stripEmptySlots p₀ := by
    unfold buildClientParams at h
    rw [hpre] at h
    have hmap : Option.map stripEmptySlots (some p₀) = some (stripEmptySlots p₀) := rfl
    rw [hmap, Option.some.injEq] at h
    exact h.symm
  subst hp
  refine ⟨strip_noEmptyMappingSlot p₀, ?_, ?_⟩
  · rw [strip_body_none_iff]
    constructor
    · rintro (hb | hb)
      · have := pre_bodySome hpre
        rw [hb] at this
        cases this
      · exact hb
    · exact Or.inr
  · intro v hb hv
    exact strip_body_keep p₀ v hb hv

/-- Witness for C5 at the empty argument list and empty config: the
pre-strip params is the all-empty record and the returned params has every
slot stripped. -/
theorem buildClientParams_strip_invariant_witness :
    noEmptyMappingSlot (⟨none, none, none, none⟩ : Params)
    ∧ ((⟨none, none, none, none⟩ : Params).body = none ↔
        initParams.body = some (Val.obj []))
    ∧ (∀ v, initParams.body = some v → isEmptyObjVal v = false →
        (⟨none, none, none, none⟩ : Params).body = some v) :=
  buildClientParams_strip_invariant [] [] initParams ⟨none, none, none, none⟩ rfl rfl

/-- Claim C6 (amended): an entry of an object argument processed under a
`Fields` group whose key is not declared in the key lookup, does not start
with any reserved prefix and is not admitted by any truthy `allowExtra`
entry of the group is silently dropped: processing it returns the params
unchanged (so the key is absent from every slot unless some other processed
entry writes the same name). -/
theorem dropped_key_noop (km : KeyMap) (g : Fields) (p : Params) (k : String) (v : Val)
    (h1 : lookupKey km k = none)
    (h2 : extraPrefixes.find? (fun pr => strStartsWith k pr.1) = none)
    (h3 : g.allowExtra.find? (fun e => e.2) = none) :
    processEntry km g p k v = some p := by
  unfold processEntry
  rw [h1, h2, h3]

/-- Witness for the amended C6: the key "k" under an empty group config is
dropped and the params value is returned unchanged. -/
theorem dropped_key_noop_witness :
    lookupKey [] "k" = none
    ∧ extraPrefixes.find? (fun pr => strStartsWith "k" pr.1) = none
    ∧ (Fields.mk [] []).allowExtra.find? (fun e => e.2) = none
    ∧ processEntry [] ⟨[], []⟩ initParams "k" (Val.str "v") = some initParams :=
  ⟨rfl, by decide, rfl,
    dropped_key_noop [] ⟨[], []⟩ initParams "k" (Val.str "v") rfl (by decide) rfl⟩

/-- Claim C6 (counterexample to the literal reading): the key "k" of the
argument `{k:"w", $query_k:"w"}` under the group config `[{}]` is undeclared,
carries no reserved prefix and is admitted by no `allowExtra` entry, yet the
returned params has the key "k" in its query slot, because the distinct key
`$query_k` of the same argument writes that name. -/
theorem dropped_key_reappears_counterexample :
    lookupKey (buildKeyMap [.fields ⟨[], []⟩]) "k" = none
    ∧ extraPrefixes.find? (fun pr => strStartsWith "k" pr.1) = none
    ∧ (Fields.mk [] []).allowExtra.find? (fun e => e.2) = none
    ∧ buildClientParams [Val.obj [("k", Val.str "w"), ("$query_k", Val.str "w")]]
        [.fields ⟨[], []⟩] =
      some ⟨none, none, none, some [("k", Val.str "w")]⟩ :=
  ⟨rfl, by decide, rfl, rfl⟩

/-- Claim C7: with fields `[{in:"query", key:"a"}]`, trailing arguments past
position 0 reuse the position-0 schema — each of "x", "y", "z" is placed
into the query slot under the key "a", and later assignments overwrite
earlier ones. -/
theorem carry_forward_example :
    buildClientParams [Val.str "x"] [.field ⟨.query, some "a", none⟩] =
      some ⟨none, none, none, some [("a", Val.str "x")]⟩
    ∧ buildClientParams [Val.str "x", Val.str "y"] [.field ⟨.query, some "a", none⟩] =
      some ⟨none, none, none, some [("a", Val.str "y")]⟩
    ∧ buildClientParams [Val.str "x", Val.str "y", Val.str "z"]
        [.field ⟨.query, some "a", none⟩] =
      some ⟨none, none, none, some [("a", Val.str "z")]⟩ :=
  ⟨rfl, rfl, rfl⟩

/-! ## Helper lemmas for client.ts -/

theorem shapeData_cases (env : ClientEnv) (resp : Response) (d : Val) :
    shapeData env resp d = .bare d ∨ shapeData env resp d = .envelope (some d) none resp := by
  cases hs : env.responseStyle <;> simp [shapeData, hs]

theorem shapeError_cases (env : ClientEnv) (resp : Response) (e : Val) :
    shapeError env resp e = .bare Val.undef ∨
      shapeError env resp e = .envelope none (some e) resp := by
  cases hs : env.responseStyle <;> simp [shapeError, hs]

theorem except_bind_ok {α β γ : Type} {x : Except γ α} {f : α → Except γ β} {b : β}
    (h : x >>= f = .ok b) : ∃ a, x = .ok a ∧ f a = .ok b := by
  cases x with
  | error e => simp [Bind.bind, Except.bind] at h
  | ok a =>
    refine ⟨a, rfl, ?_⟩
    simpa [Bind.bind, Except.bind] using h

theorem except_pure_ok {α γ : Type} {a b : α}
    (h : (pure a : Except γ α) = .ok b) : b = a :=
  (Except.ok.inj h).symm

theorem handleResponse_ok_shape (env : ClientEnv) (resp : Response) (r : ReqOutcome)
    (h : handleResponse env resp = .ok r) :
    (resp.ok = true ∧ ∃ d, r = shapeData env resp d)
    ∨ (resp.ok = false ∧ ∃ e, r = shapeError env resp e) := by
  unfold handleResponse at h
  cases hok : resp.ok with
  | true =>
    rw [hok] at h
    simp only [if_true] at h
    refine Or.inl ⟨rfl, ?_⟩
    split at h
    · exact ⟨_, except_pure_ok h⟩
    · split at h
      · exact ⟨_, except_pure_ok h⟩
      · obtain ⟨data, hpb, h2⟩ := except_bind_ok h
        split at h2
        · obtain ⟨u, hu, h3⟩ := except_bind_ok h2
          obtain ⟨y, hy, h4⟩ := except_bind_ok h3
          exact ⟨_, except_pure_ok h4⟩
        · obtain ⟨y, hy, h3⟩ := except_bind_ok h2
          exact ⟨_, except_pure_ok h3⟩
  | false =>
    rw [hok] at h
    simp only [Bool.false_eq_true, if_false] at h
    refine Or.inr ⟨rfl, ?_⟩
    obtain ⟨fe, hrun, h2⟩ := except_bind_ok h
    split at h2
    · cases h2
    · exact ⟨_, except_pure_ok h2⟩

theorem requestModel_split (env : ClientEnv) (r : ReqOutcome)
    (h : requestModel env = .ok r) :
    ∃ resp, finalResponse env = .ok resp ∧ handleResponse env resp = .ok r := by
  unfold requestModel at h
  exact except_bind_ok h

/-! ## Claims about client.ts -/

/-- Claim C1: a `request` call that returns without throwing populates
exactly one of the data and error components of the envelope; in bare
response style the error branch returns undefined; and no call both throws
and returns an error value (the return channel and the throw channel of the
`Except` result are mutually exclusive). -/
theorem request_result_exclusive (env : ClientEnv) (r : ReqOutcome)
    (h : requestModel env = .ok r) :
    (∀ d e resp, r = .envelope d e resp → (d.isSome = true ∧ e = none) ∨
      (d = none ∧ e.isSome = true))
    ∧ (∀ v resp, r = .bare v → finalResponse env = .ok resp → resp.ok = false →
        v = Val.undef)
    ∧ (∀ e, requestModel env ≠ .error e) := by
  obtain ⟨resp, hfr, hhr⟩ := requestModel_split env r h
  refine ⟨?_, ?_, ?_⟩
  · intro d e resp' hr
    subst hr
    rcases handleResponse_ok_shape env resp _ hhr with ⟨_, d₀, hd⟩ | ⟨_, e₀, he⟩
    · rcases shapeData_cases env resp d₀ with hc | hc
      · rw [hc] at hd; cases hd
      · rw [hc] at hd
        cases hd
        exact Or.inl ⟨rfl, rfl⟩
    · rcases shapeError_cases env resp e₀ with hc | hc
      · rw [hc] at he; cases he
      · rw [hc] at he
        cases he
        exact Or.inr ⟨rfl, rfl⟩
  · intro v resp' hr hfr' hnok
    subst hr
    have hre : resp' = resp := by
      rw [hfr] at hfr'
      exact (Except.ok.injEq _ _ ▸ hfr').symm
    subst hre
    rcases handleResponse_ok_shape env resp' _ hhr with ⟨hok, d₀, hd⟩ | ⟨_, e₀, he⟩
    · rw [hok] at hnok; cases hnok
    · rcases shapeError_cases env resp' e₀ with hc | hc
      · rw [hc] at he
        cases he
        rfl
      · rw [hc] at he; cases he
  · intro e hc
    rw [h] at hc
    cases hc

/-- Witness for C1: a call with a 204 response and envelope style returns an
envelope with data populated and error absent, and the exclusivity
conclusion holds for it. -/
theorem request_result_exclusive_witness :
    ((some (Val.obj [])).isSome = true ∧ (none : Option Val) = none) ∨
      ((some (Val.obj []) : Option Val) = none ∧ (none : Option Val).isSome = true) :=
  (request_result_exclusive
      ⟨none, none, Val.undef, none, .ok (), [], .ok ⟨204, [], "", Val.undef⟩, [],
        none, .fields, fun _ _ => .ok Val.undef, fun _ => none, [], none, none, false⟩
      (.envelope (some (Val.obj [])) none ⟨204, [], "", Val.undef⟩) rfl).1
    (some (Val.obj [])) none ⟨204, [], "", Val.undef⟩ rfl

/-- Claim C4: a successful response with status 204 or a Content-Length
header equal to "0" makes `request` return an empty data object — the bare
value `{}` or an envelope whose data is `{}` — whatever the configured
`parseAs`, body parser, response validator and response transformer are
(the environment quantifies over all of them), skipping those stages. -/
theorem no_content_empty_data (env : ClientEnv) (resp : Response)
    (hfr : finalResponse env = .ok resp) (hok : resp.ok = true)
    (hnc : resp.status = 204 ∨ headerGet resp.headers "Content-Length" = some "0") :
    requestModel env = .ok (shapeData env resp (Val.obj [])) := by
  unfold requestModel
  rw [hfr]
  simp only [bind, Except.bind]
  unfold handleResponse
  rw [hok]
  simp only [if_true]
  have hcond : (resp.status == 204 || headerGet resp.headers "Content-Length" == some "0") = true := by
    rcases hnc with hs | hcl
    · rw [hs]
      rfl
    · rw [hcl]
      simp
  rw [hcond]
  simp only [if_true]
  rfl

/-- Witness for C4: a concrete 204 response with envelope style yields the
envelope with an empty data object. -/
theorem no_content_empty_data_witness :
    requestModel
        ⟨none, none, Val.undef, none, .ok (), [], .ok ⟨204, [], "", Val.undef⟩, [],
          some .auto, .fields, fun _ _ => .ok Val.undef, fun _ => none, [], none, none,
          false⟩ =
      .ok (shapeData
        ⟨none, none, Val.undef, none, .ok (), [], .ok ⟨204, [], "", Val.undef⟩, [],
          some .auto, .fields, fun _ _ => .ok Val.undef, fun _ => none, [], none, none,
          false⟩
        ⟨204, [], "", Val.undef⟩ (Val.obj [])) :=
  no_content_empty_data
    ⟨none, none, Val.undef, none, .ok (), [], .ok ⟨204, [], "", Val.undef⟩, [],
      some .auto, .fields, fun _ _ => .ok Val.undef, fun _ => none, [], none, none,
      false⟩
    ⟨204, [], "", Val.undef⟩ rfl rfl (Or.inl rfl)

/-- Claim C3 (amended): for a non-2xx response whose body text parses as a
JSON value that is neither null nor falsy, with an empty error interceptor
chain, the error value surfaced by `request` is exactly the parsed JSON
value — thrown under `throwOnError`, otherwise returned in the error channel
(the envelope error field; bare style returns undefined).  A parsed null
falls back to the raw text through `??`, and a falsy error value is replaced
by an empty object by `finalError || {}`, which is what the counterexample
exhibits. -/
theorem error_parsed_json_truthy (env : ClientEnv) (resp : Response) (j : Val)
    (hfr : finalResponse env = .ok resp) (hnok : resp.ok = false)
    (hj : env.jsonParse resp.bodyText = some j) (hnn : j ≠ Val.null)
    (ht : jsTruthy j = true) (hfns : env.errorFns = []) :
    (env.throwOnError = true → requestModel env = .error j)
    ∧ (env.throwOnError = false → requestModel env = .ok (shapeError env resp j)) := by
  have hbase : requestModel env = handleResponse env resp := by
    unfold requestModel
    rw [hfr]
    rfl
  have herr :
      (match env.jsonParse resp.bodyText with
        | some Val.null => Val.str resp.bodyText
        | some j => j
        | none => Val.str resp.bodyText) = j := by
    rw [hj]
    cases j with
    | null => exact absurd rfl hnn
    | undef => rfl
    | bool b => rfl
    | num n => rfl
    | str s => rfl
    | obj es => rfl
  have hh : handleResponse env resp =
      (if env.throwOnError then .error j else .ok (shapeError env resp j)) := by
    unfold handleResponse
    rw [hnok]
    simp only [Bool.false_eq_true, if_false]
    rw [herr, hfns]
    have hrun : runErrorFns [] j resp = .ok j := rfl
    rw [hrun]
    simp only [bind, Except.bind, ht, if_true]
    cases hto : env.throwOnError with
    | true => rfl
    | false => rfl
  constructor
  · intro hto
    rw [hbase, hh, hto]
    rfl
  · intro hto
    rw [hbase, hh, hto]
    rfl

/-- Witness for the amended C3: a 400 response with body text "7" (whose
JSON parse is the truthy number 7) and an empty error chain returns the
envelope whose error is the parsed number 7. -/
theorem error_parsed_json_truthy_witness :
    requestModel
        ⟨none, none, Val.undef, none, .ok (), [], .ok ⟨400, [], "7", Val.undef⟩, [],
          none, .fields, fun _ _ => .ok Val.undef,
          fun s => if s = "7" then some (Val.num 7) else none, [], none, none, false⟩ =
      .ok (shapeError
        ⟨none, none, Val.undef, none, .ok (), [], .ok ⟨400, [], "7", Val.undef⟩, [],
          none, .fields, fun _ _ => .ok Val.undef,
          fun s => if s = "7" then some (Val.num 7) else none, [], none, none, false⟩
        ⟨400, [], "7", Val.undef⟩ (Val.num 7)) :=
  (error_parsed_json_truthy
      ⟨none, none, Val.undef, none, .ok (), [], .ok ⟨400, [], "7", Val.undef⟩, [],
        none, .fields, fun _ _ => .ok Val.undef,
        fun s => if s = "7" then some (Val.num 7) else none, [], none, none, false⟩
      ⟨400, [], "7", Val.undef⟩ (Val.num 7) rfl rfl rfl (by intro h; cases h) rfl
      rfl).2 rfl

/-- Claim C3 (counterexample): a 400 response with body text "0" — valid
JSON parsing to the number 0 — and an empty error chain yields an error
value of `{}` (because `finalError || {}` replaces the falsy 0), not the
parsed JSON value 0. -/
theorem error_falsy_json_counterexample :
    (fun s => if s = "0" then some (Val.num 0) else none : String → Option Val) "0" =
      some (Val.num 0)
    ∧ requestModel
        ⟨none, none, Val.undef, none, .ok (), [], .ok ⟨400, [], "0", Val.undef⟩, [],
          none, .fields, fun _ _ => .ok Val.undef,
          fun s => if s = "0" then some (Val.num 0) else none, [], none, none, false⟩ =
      .ok (.envelope none (some (Val.obj [])) ⟨400, [], "0", Val.undef⟩)
    ∧ Val.obj [] ≠ Val.num 0 :=
  ⟨rfl, rfl, fun h => Val.noConfusion h⟩

/-! ## Claims about the collaborator services -/

/-- Claim C9: off macOS every permissions check and request operation
returns the fixed success result carrying true for every choice of platform
collaborators (so the outcome depends on no platform API), and the web
FFmpeg compression returns the fixed unavailable tagged error with its
human-readable message and tag.  All of these are returned result values:
the service functions are total functions into the result type and have no
throw channel. -/
theorem unsupported_platform_fixed_results (env : PermEnv) (blob : Val)
    (compressionOptions : String) :
    accessibilityCheck false env = .ok true
    ∧ accessibilityRequest false env = .ok (Val.bool true)
    ∧ microphoneCheck false env = .ok true
    ∧ microphoneRequest false env = .ok (Val.bool true)
    ∧ ffmpegCheckInstalledWeb = .ok false
    ∧ ∃ e, ffmpegCompressAudioBlobWeb blob compressionOptions = .err e
        ∧ e.name = "FfmpegServiceError"
        ∧ e.message = "Audio compression is not available in the web version. FFmpeg is only supported in the desktop application." :=
  ⟨rfl, rfl, rfl, rfl, rfl, ⟨_, rfl, rfl, rfl⟩⟩

/-- Claim C10: when the active-notification listing succeeds and no listed
notification has the hash of the requested id, `clear` returns the success
result Ok(undefined); the same conclusion holds after replacing the removal
collaborator by anything, so no removal call is consulted. -/
theorem clear_missing_notification_ok (env : NotifEnv) (idStringified : String)
    (l : List Nat) (ha : env.active = .ok l)
    (hno : ∀ n ∈ l, n ≠ hashNanoidToNumber idStringified) :
    notificationClear env idStringified = .ok ()
    ∧ ∀ rm, notificationClear { env with removeActive := rm } idStringified = .ok () := by
  have hfind : l.find? (fun n => n == hashNanoidToNumber idStringified) = none := by
    rw [List.find?_eq_none]
    intro x hx
    simp only [beq_iff_eq]
    exact hno x hx
  have key : ∀ env' : NotifEnv, env'.active = .ok l →
      notificationClear env' idStringified = .ok () := by
    intro env' ha'
    simp [notificationClear, removeNotificationById, ha', hfind]
  exact ⟨key env ha, fun rm => key { env with removeActive := rm } ha⟩

/-- Witness for C10: clearing any id against an empty active-notification
list succeeds. -/
theorem clear_missing_notification_ok_witness :
    notificationClear ⟨Except.ok [], fun _ => Except.ok ()⟩ "x" = .ok () :=
  (clear_missing_notification_ok ⟨Except.ok [], fun _ => Except.ok ()⟩ "x" [] rfl
    (fun n hn => absurd hn (List.not_mem_nil n))).1

/-- Claim C8: `stripEmptySlots` is idempotent. -/
theorem stripEmptySlots_idempotent (p : Params) :
    stripEmptySlots (stripEmptySlots p) = stripEmptySlots p := by
  rcases p with ⟨b, h, pa, qu⟩
  simp only [stripEmptySlots, Params.mk.injEq]
  refine ⟨?_, ?_, ?_, ?_⟩
  · cases b with
    | none => rfl
    | some v =>
      cases hv : isEmptyObjVal v with
      | true => simp [hv]
      | false => simp [hv]
  · cases h with
    | none => rfl
    | some l => cases l <;> rfl
  · cases pa with
    | none => rfl
    | some l => cases l <;> rfl
  · cases qu with
    | none => rfl
    | some l => cases l <;> rfl

end Epicenter
